import Mathlib

/-!
Verification of the zeus-med-app scheduling core against its specification.

The repository contains a pure schedule calculator (src/lib/schedule.ts,
here the top-level date functions), and two versions of the alert-runner
cron script: scripts/send-alerts.js (namespace SendAlerts below) and the
"Zeus Alerts - GitHub Actions cron" script (namespace CronAlerts below).

Dates are embedded as proleptic-Gregorian calendar triples (year, month,
day) with year counted from 0; toRata gives the day number since
0000-01-01, which is the quantity underlying the date-fns operations
addDays, differenceInCalendarDays and getDay used by the source.
-/

set_option maxHeartbeats 1000000
set_option maxRecDepth 100000

/-- Gregorian leap-year rule, as implemented by JS Date / date-fns. -/
def isLeap (y : Nat) : Bool :=
  (y % 4 == 0 && y % 100 != 0) || y % 400 == 0

/-- Number of days in month m (1..12) of year y. -/
def daysInMonth (y m : Nat) : Nat :=
  if m = 2 then (if isLeap y then 29 else 28)
  else if m = 4 ∨ m = 6 ∨ m = 9 ∨ m = 11 then 30
  else 31

/-- A calendar date, as the (year, month, day) view of a JS Date at local midnight. -/
structure Date where
  year : Nat
  month : Nat
  day : Nat
deriving DecidableEq

/-- The date is a real calendar date: month in 1..12, day in 1..daysInMonth. -/
def Date.Valid (d : Date) : Prop :=
  1 ≤ d.month ∧ d.month ≤ 12 ∧ 1 ≤ d.day ∧ d.day ≤ daysInMonth d.year d.month

instance (d : Date) : Decidable d.Valid := by
  unfold Date.Valid
  infer_instance

/-- Total days in months 1..m of year y. -/
def monthsSum (y : Nat) : Nat → Nat
  | 0 => 0
  | m + 1 => monthsSum y m + daysInMonth y (m + 1)

/-- Number of leap years among 0, 1, ..., y-1. -/
def leapsBefore (y : Nat) : Nat :=
  (y + 3) / 4 + (y + 399) / 400 - (y + 99) / 100

/-- Days in years 0, 1, ..., y-1. -/
def daysBeforeYear (y : Nat) : Nat :=
  365 * y + leapsBefore y

/-- Day number of a date, counted from 0000-01-01 = 0. -/
def toRata (d : Date) : Nat :=
  daysBeforeYear d.year + monthsSum d.year (d.month - 1) + (d.day - 1)

/-- The calendar successor of a date. -/
def nextDay (d : Date) : Date :=
  if d.day < daysInMonth d.year d.month then ⟨d.year, d.month, d.day + 1⟩
  else if d.month < 12 then ⟨d.year, d.month + 1, 1⟩
  else ⟨d.year + 1, 1, 1⟩

/-- date-fns addDays restricted to non-negative counts: iterate the calendar successor. -/
def addDays (d : Date) : Nat → Date
  | 0 => d
  | n + 1 => nextDay (addDays d n)

/-- Day of week of a date, with the JS Date convention 0 = Sunday, 6 = Saturday. -/
def dayOfWeek (d : Date) : Nat := (toRata d + 6) % 7

/-- Zero-based month counter used by date-fns addMonths: 12 * year + (month - 1). -/
def monthIndex (d : Date) : Nat := 12 * d.year + (d.month - 1)

/-- date-fns addMonths: advance the month counter and clamp the day of month to the
last valid day of the target month. -/
def addMonths (d : Date) (n : Nat) : Date :=
  ⟨(monthIndex d + n) / 12, (monthIndex d + n) % 12 + 1,
    min d.day (daysInMonth ((monthIndex d + n) / 12) ((monthIndex d + n) % 12 + 1))⟩

/-- Interval unit of a treatment, the TS union type of src/lib/schedule.ts. -/
inductive IntervalUnit
  | days
  | months
deriving DecidableEq

/-- addInterval from src/lib/schedule.ts and both cron scripts. -/
def addInterval (date : Date) (value : Nat) (unit : IntervalUnit) : Date :=
  match unit with
  | .months => addMonths date value
  | .days => addDays date value

/-- adjustWeekend from src/lib/schedule.ts: Saturday shifts by 2 days, Sunday by 1. -/
def adjustWeekend (date : Date) : Date :=
  if dayOfWeek date = 6 then addDays date 2
  else if dayOfWeek date = 0 then addDays date 1
  else date

/-- calcNextDate from src/lib/schedule.ts and both cron scripts. -/
def calcNextDate (lastApplied : Date) (value : Nat) (unit : IntervalUnit) : Date :=
  adjustWeekend (addInterval lastApplied value unit)

/-- daysToNext: date-fns differenceInCalendarDays of the two dates. -/
def daysToNext (nextDate today : Date) : Int :=
  (toRata nextDate : Int) - (toRata today : Int)

/-- Status union type of src/lib/schedule.ts. -/
inductive Status
  | overdue
  | upcoming
  | later
deriving DecidableEq

/-- statusFromDays from src/lib/schedule.ts. -/
def statusFromDays (days : Int) : Status :=
  if days < 0 then .overdue
  else if days ≤ 60 then .upcoming
  else .later

deriving instance DecidableEq for Except

/-- Row key of the alert_log table: (treatment_id, alert_type, alert_date). The
alert_date is kept as a calendar date; the scripts use its ISO string form, which is
in bijection with it. -/
abbrev LogKey := Nat × String × Date

/-- Error returned by the persistence collaborator; code "23505" is unique_violation. -/
structure StoreError where
  code : String
deriving DecidableEq

/-- State of the persistence collaborator: the alert_log rows, plus an optional
injected failure under which every query fails (connectivity or schema error). -/
structure Store where
  log : List LogKey
  fault : Option StoreError
deriving DecidableEq

/-- Insert of one row into alert_log: fails with the injected fault when present,
fails with unique_violation 23505 when the key already exists (the UNIQUE
constraint), otherwise adds the row. -/
def insertAttempt (s : Store) (k : LogKey) : Option StoreError × Store :=
  match s.fault with
  | some e => (some e, s)
  | none =>
    if k ∈ s.log then (some ⟨"23505"⟩, s)
    else (none, { s with log := k :: s.log })

/-- Errors that abort a runner iteration. -/
inductive RunError
  | store (e : StoreError)
  | telegram
deriving DecidableEq

/-- Treatment row as read by the cron scripts; alerts_days is none when the column
holds null (not an array). -/
structure Treatment where
  id : Nat
  name : String
  category : String
  interval_value : Nat
  interval_unit : IntervalUnit
  alerts_days : Option (List Int)
deriving DecidableEq

/-- Ambient data of one runner invocation: the current Sao Paulo calendar date (used
both by differenceInCalendarDays and as the alert_date key) and whether the Telegram
channel currently accepts sends. -/
structure Env where
  today : Date
  telegramOk : Bool
deriving DecidableEq

/-- Day offset computed by both runners for a treatment and its last application. -/
def computedDays (env : Env) (t : Treatment) (last : Date) : Int :=
  daysToNext (calcNextDate last t.interval_value t.interval_unit) env.today

namespace SendAlerts

/-- alreadyLogged from scripts/send-alerts.js: try to insert into alert_log; success
means no prior row existed (returns false, claim acquired), error code 23505 means
already logged (returns true), any other error is re-thrown. -/
def alreadyLogged (s : Store) (k : LogKey) : Except StoreError Bool × Store :=
  match insertAttempt s k with
  | (none, s₁) => (.ok false, s₁)
  | (some e, s₁) => if e.code = "23505" then (.ok true, s₁) else (.error e, s₁)

/-- The claim-then-notify block shared by the overdue and due-in branches of
scripts/send-alerts.js main: claim via alreadyLogged, then send via Telegram. A sent
notification is recorded as the pair (treatment id, alert type). -/
def claimAndSend (env : Env) (t : Treatment) (ty : String) (s : Store) :
    Except RunError (List (Nat × String)) × Store :=
  match alreadyLogged s (t.id, ty, env.today) with
  | (.error e, s₁) => (.error (.store e), s₁)
  | (.ok true, s₁) => (.ok [], s₁)
  | (.ok false, s₁) =>
    if env.telegramOk then (.ok [(t.id, ty)], s₁) else (.error .telegram, s₁)

/-- Threshold resolution of scripts/send-alerts.js line 122: the configured array
when alerts_days is an array (even when empty), the default [30, 15, 5] otherwise. -/
def resolveAlerts (a : Option (List Int)) : List Int :=
  match a with
  | some l => l
  | none => [30, 15, 5]

/-- One iteration of the treatments loop of scripts/send-alerts.js main. -/
def processTreatment (env : Env) (t : Treatment) (lastApplied : Option Date) (s : Store) :
    Except RunError (List (Nat × String)) × Store :=
  match lastApplied with
  | none => (.ok [], s)
  | some last =>
    if computedDays env t last < 0 then claimAndSend env t "overdue_daily" s
    else if computedDays env t last ∈ resolveAlerts t.alerts_days then
      claimAndSend env t ("due_in_" ++ toString (computedDays env t last)) s
    else (.ok [], s)

end SendAlerts

namespace CronAlerts

/-- alreadyLogged from the Zeus Alerts cron script: a select on alert_log; an error
is re-thrown, otherwise report whether a row for the key exists. -/
def alreadyLogged (s : Store) (k : LogKey) : Except StoreError Bool × Store :=
  match s.fault with
  | some e => (.error e, s)
  | none => (.ok (decide (k ∈ s.log)), s)

/-- insertLog from the Zeus Alerts cron script: insert a row, re-throwing any error. -/
def insertLog (s : Store) (k : LogKey) : Except StoreError Unit × Store :=
  match insertAttempt s k with
  | (none, s₁) => (.ok (), s₁)
  | (some e, s₁) => (.error e, s₁)

/-- Threshold resolution of the Zeus Alerts cron script: the configured array when it
is a non-empty array, the default [30, 15, 5] when it is null or empty. -/
def resolveAlerts (a : Option (List Int)) : List Int :=
  match a with
  | some l => if l.length > 0 then l else [30, 15, 5]
  | none => [30, 15, 5]

/-- The check-send-insert block shared by the upcoming and overdue branches of the
Zeus Alerts cron script main: check via select, send via Telegram, then insert the
log row. -/
def checkSendLog (env : Env) (t : Treatment) (ty : String) (s : Store) :
    Except RunError (List (Nat × String)) × Store :=
  match alreadyLogged s (t.id, ty, env.today) with
  | (.error e, s₁) => (.error (.store e), s₁)
  | (.ok b, s₁) =>
    if b then (.ok [], s₁)
    else if env.telegramOk then
      match insertLog s₁ (t.id, ty, env.today) with
      | (.error e, s₂) => (.error (.store e), s₂)
      | (.ok _, s₂) => (.ok [(t.id, ty)], s₂)
    else (.error .telegram, s₁)

/-- One iteration of the treatments loop of the Zeus Alerts cron script main: the
upcoming branch runs first, then (if it did not throw) the overdue branch. -/
def processTreatment (env : Env) (t : Treatment) (lastApplied : Option Date) (s : Store) :
    Except RunError (List (Nat × String)) × Store :=
  match lastApplied with
  | none => (.ok [], s)
  | some last =>
    match (if computedDays env t last ∈ resolveAlerts t.alerts_days then
            checkSendLog env t ("upcoming_" ++ toString (computedDays env t last)) s
           else (.ok [], s)) with
    | (.error e, s₁) => (.error e, s₁)
    | (.ok ms₁, s₁) =>
      match (if computedDays env t last < 0 then checkSendLog env t "overdue_daily" s₁
             else (.ok [], s₁)) with
      | (.error e, s₂) => (.error e, s₂)
      | (.ok ms₂, s₂) => (.ok (ms₁ ++ ms₂), s₂)

end CronAlerts

/-- The treatments loop of either cron script: process the treatments in order and
abort on the first thrown error, keeping store mutations already made. -/
def runAll
    (step : Treatment → Option Date → Store → Except RunError (List (Nat × String)) × Store) :
    List (Treatment × Option Date) → Store → Except RunError (List (Nat × String)) × Store
  | [], s => (.ok [], s)
  | (t, la) :: rest, s =>
    match step t la s with
    | (.error e, s₁) => (.error e, s₁)
    | (.ok ms, s₁) =>
      match runAll step rest s₁ with
      | (.error e, s₂) => (.error e, s₂)
      | (.ok ms₂, s₂) => (.ok (ms ++ ms₂), s₂)

/-- Threshold resolution as the specification words it: the configured list, or the
default [30, 15, 5] when that list is absent or empty. -/
def specResolveAlerts (a : Option (List Int)) : List Int :=
  match a with
  | some l => if l = [] then [30, 15, 5] else l
  | none => [30, 15, 5]

theorem isLeap_iff (y : Nat) :
    isLeap y = true ↔ ((y % 4 = 0 ∧ y % 100 ≠ 0) ∨ y % 400 = 0) := by
  simp [isLeap, Bool.or_eq_true, Bool.and_eq_true, beq_iff_eq, bne_iff_ne]

theorem one_le_daysInMonth (y m : Nat) : 1 ≤ daysInMonth y m := by
  unfold daysInMonth
  split_ifs <;> omega

theorem daysInMonth_le (y m : Nat) : daysInMonth y m ≤ 31 := by
  unfold daysInMonth
  split_ifs <;> omega

theorem monthsSum_pred (y : Nat) (m : Nat) (h : 1 ≤ m) :
    monthsSum y m = monthsSum y (m - 1) + daysInMonth y m := by
  cases m with
  | zero => omega
  | succ m => rfl

theorem monthsSum_twelve (y : Nat) :
    monthsSum y 12 = if isLeap y then 366 else 365 := by
  have e : monthsSum y 12 =
      0 + 31 + (if isLeap y then 29 else 28) + 31 + 30 + 31 + 30 + 31 + 31 + 30 + 31 + 30 + 31 :=
    rfl
  rw [e]
  cases isLeap y <;> simp

theorem leapsBefore_succ (y : Nat) :
    leapsBefore (y + 1) = leapsBefore y + (if isLeap y then 1 else 0) := by
  rcases Bool.eq_false_or_eq_true (isLeap y) with h | h
  · have hp : (y % 4 = 0 ∧ y % 100 ≠ 0) ∨ y % 400 = 0 := (isLeap_iff y).mp h
    simp [h]
    unfold leapsBefore
    omega
  · have hp : ¬ ((y % 4 = 0 ∧ y % 100 ≠ 0) ∨ y % 400 = 0) := by
      rw [← isLeap_iff, h]
      simp
    simp [h]
    unfold leapsBefore
    omega

theorem daysBeforeYear_succ (y : Nat) :
    daysBeforeYear (y + 1) = daysBeforeYear y + monthsSum y 12 := by
  unfold daysBeforeYear
  rw [leapsBefore_succ, monthsSum_twelve]
  cases isLeap y <;> simp <;> omega

theorem toRata_nextDay (d : Date) (h : d.Valid) :
    toRata (nextDay d) = toRata d + 1 := by
  obtain ⟨h1, h2, h3, h4⟩ := h
  unfold nextDay toRata
  split_ifs with hlt hm
  · simp only
    omega
  · simp only
    have hms := monthsSum_pred d.year d.month h1
    have : d.month + 1 - 1 = d.month := by omega
    rw [this]
    omega
  · simp only
    have hm12 : d.month = 12 := by omega
    have hy := daysBeforeYear_succ d.year
    have hms := monthsSum_pred d.year 12 (by omega)
    have hz : monthsSum (d.year + 1) (1 - 1) = 0 := rfl
    rw [hm12] at hlt h4 ⊢
    have h31 := one_le_daysInMonth d.year 12
    omega

theorem nextDay_valid (d : Date) (h : d.Valid) : (nextDay d).Valid := by
  obtain ⟨h1, h2, h3, h4⟩ := h
  have hd1 := one_le_daysInMonth d.year (d.month + 1)
  have hd2 := one_le_daysInMonth (d.year + 1) 1
  unfold nextDay Date.Valid
  split_ifs with hlt hm <;> simp only <;> refine ⟨?_, ?_, ?_, ?_⟩ <;> omega

theorem toRata_addDays (d : Date) (n : Nat) (h : d.Valid) :
    toRata (addDays d n) = toRata d + n ∧ (addDays d n).Valid := by
  induction n with
  | zero => exact ⟨rfl, h⟩
  | succ n ih =>
    refine ⟨?_, nextDay_valid _ ih.2⟩
    show toRata (nextDay (addDays d n)) = _
    rw [toRata_nextDay _ ih.2, ih.1]
    omega

example : dayOfWeek ⟨1970, 1, 1⟩ = 4 := by decide
example : dayOfWeek ⟨2024, 1, 1⟩ = 1 := by decide
example : dayOfWeek ⟨2024, 1, 6⟩ = 6 := by decide

theorem dayOfWeek_addDays (d : Date) (n : Nat) (h : d.Valid) :
    dayOfWeek (addDays d n) = (toRata d + n + 6) % 7 := by
  unfold dayOfWeek
  rw [(toRata_addDays d n h).1]

theorem addMonths_monthIndex (d : Date) (n : Nat) :
    monthIndex (addMonths d n) = monthIndex d + n := by
  unfold addMonths monthIndex
  simp only
  omega

theorem addMonths_day (d : Date) (n : Nat) :
    (addMonths d n).day =
      min d.day (daysInMonth (addMonths d n).year (addMonths d n).month) := rfl

theorem addMonths_valid (d : Date) (n : Nat) (h : d.Valid) : (addMonths d n).Valid := by
  obtain ⟨h1, h2, h3, h4⟩ := h
  unfold addMonths Date.Valid
  simp only
  refine ⟨by omega, by omega, ?_, Nat.min_le_right _ _⟩
  exact Nat.le_min.mpr ⟨h3, one_le_daysInMonth _ _⟩

theorem addMonths_jan31 (y : Nat) :
    addMonths ⟨y, 1, 31⟩ 1 = ⟨y, 2, daysInMonth y 2⟩ := by
  have hdim : daysInMonth y 2 ≤ 31 := daysInMonth_le y 2
  unfold addMonths monthIndex
  simp only
  have e1 : (12 * y + (1 - 1) + 1) / 12 = y := by omega
  have e2 : (12 * y + (1 - 1) + 1) % 12 + 1 = 2 := by omega
  rw [e1, e2, Nat.min_eq_right hdim]

/-- C6: statusFromDays returns overdue exactly for negative day counts, upcoming
exactly for 0..60, later exactly above 60, with the stated boundary values. -/
theorem statusFromDays_spec (days : Int) :
    (statusFromDays days = .overdue ↔ days < 0) ∧
    (statusFromDays days = .upcoming ↔ 0 ≤ days ∧ days ≤ 60) ∧
    (statusFromDays days = .later ↔ 60 < days) ∧
    statusFromDays (-1) = .overdue ∧ statusFromDays 0 = .upcoming ∧
    statusFromDays 60 = .upcoming ∧ statusFromDays 61 = .later := by
  refine ⟨?_, ?_, ?_, by decide, by decide, by decide, by decide⟩ <;>
    unfold statusFromDays <;> split_ifs <;> simp <;> omega

/-- C7: on valid dates, adjustWeekend never returns a Saturday or a Sunday, moves the
date forward by at most 2 days, and specifically shifts a Saturday by 2 days, a Sunday
by 1 day, and leaves any other date unchanged. -/
theorem adjustWeekend_spec (d : Date) (h : d.Valid) :
    dayOfWeek (adjustWeekend d) ≠ 6 ∧ dayOfWeek (adjustWeekend d) ≠ 0 ∧
    toRata d ≤ toRata (adjustWeekend d) ∧ toRata (adjustWeekend d) ≤ toRata d + 2 ∧
    (dayOfWeek d = 6 → adjustWeekend d = addDays d 2) ∧
    (dayOfWeek d = 0 → adjustWeekend d = addDays d 1) ∧
    (dayOfWeek d ≠ 6 → dayOfWeek d ≠ 0 → adjustWeekend d = d) := by
  have ht2 := (toRata_addDays d 2 h).1
  have ht1 := (toRata_addDays d 1 h).1
  have hdw : dayOfWeek d = (toRata d + 6) % 7 := rfl
  have hdw2 : dayOfWeek (addDays d 2) = (toRata d + 2 + 6) % 7 := dayOfWeek_addDays d 2 h
  have hdw1 : dayOfWeek (addDays d 1) = (toRata d + 1 + 6) % 7 := dayOfWeek_addDays d 1 h
  by_cases h6 : dayOfWeek d = 6
  · have r6 : (toRata d + 6) % 7 = 6 := by rw [← hdw]; exact h6
    have e : adjustWeekend d = addDays d 2 := by
      unfold adjustWeekend
      rw [if_pos h6]
    rw [e]
    exact ⟨by rw [hdw2]; omega, by rw [hdw2]; omega, by omega, by omega,
      fun _ => rfl, fun hh => absurd hh (by rw [hdw]; omega), fun hh _ => absurd h6 hh⟩
  · by_cases h0 : dayOfWeek d = 0
    · have r0 : (toRata d + 6) % 7 = 0 := by rw [← hdw]; exact h0
      have e : adjustWeekend d = addDays d 1 := by
        unfold adjustWeekend
        rw [if_neg h6, if_pos h0]
      rw [e]
      exact ⟨by rw [hdw1]; omega, by rw [hdw1]; omega, by omega, by omega,
        fun hh => absurd hh h6, fun _ => rfl, fun _ hh => absurd h0 hh⟩
    · have e : adjustWeekend d = d := by
        unfold adjustWeekend
        rw [if_neg h6, if_neg h0]
      rw [e]
      exact ⟨h6, h0, by omega, by omega,
        fun hh => absurd hh h6, fun hh => absurd hh h0, fun _ _ => rfl⟩

/-- Witness for C7 at the concrete Saturday 2024-01-06. -/
theorem adjustWeekend_spec_witness :
    dayOfWeek (adjustWeekend ⟨2024, 1, 6⟩) ≠ 6 ∧ dayOfWeek (adjustWeekend ⟨2024, 1, 6⟩) ≠ 0 ∧
    toRata ⟨2024, 1, 6⟩ ≤ toRata (adjustWeekend ⟨2024, 1, 6⟩) ∧
    toRata (adjustWeekend ⟨2024, 1, 6⟩) ≤ toRata ⟨2024, 1, 6⟩ + 2 ∧
    (dayOfWeek ⟨2024, 1, 6⟩ = 6 → adjustWeekend ⟨2024, 1, 6⟩ = addDays ⟨2024, 1, 6⟩ 2) ∧
    (dayOfWeek ⟨2024, 1, 6⟩ = 0 → adjustWeekend ⟨2024, 1, 6⟩ = addDays ⟨2024, 1, 6⟩ 1) ∧
    (dayOfWeek ⟨2024, 1, 6⟩ ≠ 6 → dayOfWeek ⟨2024, 1, 6⟩ ≠ 0 →
      adjustWeekend ⟨2024, 1, 6⟩ = ⟨2024, 1, 6⟩) :=
  adjustWeekend_spec ⟨2024, 1, 6⟩ (by decide)

/-- C8: with unit days, addInterval advances the day number by exactly the value; with
unit months it advances the month counter by exactly the value and clamps the day of
month to the last valid day of the target month, preserving it when it fits; in
particular January 31 plus one month is the last valid day of February. -/
theorem addInterval_spec (d : Date) (v : Nat) (h : d.Valid) :
    (toRata (addInterval d v .days) = toRata d + v ∧ (addInterval d v .days).Valid) ∧
    (monthIndex (addInterval d v .months) = monthIndex d + v ∧
      (addInterval d v .months).day =
        min d.day (daysInMonth (addInterval d v .months).year (addInterval d v .months).month) ∧
      (d.day ≤ daysInMonth (addInterval d v .months).year (addInterval d v .months).month →
        (addInterval d v .months).day = d.day) ∧
      (addInterval d v .months).Valid) ∧
    addInterval ⟨d.year, 1, 31⟩ 1 .months = ⟨d.year, 2, daysInMonth d.year 2⟩ := by
  refine ⟨⟨(toRata_addDays d v h).1, (toRata_addDays d v h).2⟩,
    ⟨addMonths_monthIndex d v, addMonths_day d v, ?_, addMonths_valid d v h⟩,
    addMonths_jan31 d.year⟩
  intro hle
  exact Nat.min_eq_left hle

/-- Witness for C8 at the concrete date 2024-01-31 with value 1. -/
theorem addInterval_spec_witness :
    (toRata (addInterval ⟨2024, 1, 31⟩ 1 .days) = toRata ⟨2024, 1, 31⟩ + 1 ∧
      (addInterval ⟨2024, 1, 31⟩ 1 .days).Valid) ∧
    (monthIndex (addInterval ⟨2024, 1, 31⟩ 1 .months) = monthIndex ⟨2024, 1, 31⟩ + 1 ∧
      (addInterval ⟨2024, 1, 31⟩ 1 .months).day =
        min (Date.day ⟨2024, 1, 31⟩)
          (daysInMonth (addInterval ⟨2024, 1, 31⟩ 1 .months).year
            (addInterval ⟨2024, 1, 31⟩ 1 .months).month) ∧
      (Date.day ⟨2024, 1, 31⟩ ≤
          daysInMonth (addInterval ⟨2024, 1, 31⟩ 1 .months).year
            (addInterval ⟨2024, 1, 31⟩ 1 .months).month →
        (addInterval ⟨2024, 1, 31⟩ 1 .months).day = Date.day ⟨2024, 1, 31⟩) ∧
      (addInterval ⟨2024, 1, 31⟩ 1 .months).Valid) ∧
    addInterval ⟨2024, 1, 31⟩ 1 .months = ⟨2024, 2, daysInMonth 2024 2⟩ :=
  addInterval_spec ⟨2024, 1, 31⟩ 1 (by decide)

/-- C10: adjustWeekend is idempotent on valid dates. -/
theorem adjustWeekend_idem (d : Date) (h : d.Valid) :
    adjustWeekend (adjustWeekend d) = adjustWeekend d := by
  have hdw : dayOfWeek d = (toRata d + 6) % 7 := rfl
  have hdw2 : dayOfWeek (addDays d 2) = (toRata d + 2 + 6) % 7 := dayOfWeek_addDays d 2 h
  have hdw1 : dayOfWeek (addDays d 1) = (toRata d + 1 + 6) % 7 := dayOfWeek_addDays d 1 h
  by_cases h6 : dayOfWeek d = 6
  · have e : adjustWeekend d = addDays d 2 := by
      unfold adjustWeekend
      rw [if_pos h6]
    rw [e]
    rw [hdw] at h6
    unfold adjustWeekend
    rw [if_neg (by rw [hdw2]; omega), if_neg (by rw [hdw2]; omega)]
  · by_cases h0 : dayOfWeek d = 0
    · have e : adjustWeekend d = addDays d 1 := by
        unfold adjustWeekend
        rw [if_neg h6, if_pos h0]
      rw [e]
      rw [hdw] at h0
      unfold adjustWeekend
      rw [if_neg (by rw [hdw1]; omega), if_neg (by rw [hdw1]; omega)]
    · have e : adjustWeekend d = d := by
        unfold adjustWeekend
        rw [if_neg h6, if_neg h0]
      rw [e]
      exact e

/-- Witness for C10 at the concrete Saturday 2024-01-06. -/
theorem adjustWeekend_idem_witness :
    adjustWeekend (adjustWeekend ⟨2024, 1, 6⟩) = adjustWeekend ⟨2024, 1, 6⟩ :=
  adjustWeekend_idem ⟨2024, 1, 6⟩ (by decide)

example :
    SendAlerts.processTreatment ⟨⟨2024, 1, 10⟩, false⟩ ⟨1, "V", "d", 1, .days, none⟩
      (some ⟨2024, 1, 1⟩) ⟨[], none⟩ =
    (.error .telegram, ⟨[(1, "overdue_daily", ⟨2024, 1, 10⟩)], none⟩) := by decide

example :
    SendAlerts.processTreatment ⟨⟨2024, 1, 1⟩, true⟩ ⟨1, "V", "d", 30, .days, none⟩
      (some ⟨2024, 1, 1⟩) ⟨[], none⟩ =
    (.ok [(1, "due_in_30")], ⟨[(1, "due_in_30", ⟨2024, 1, 1⟩)], none⟩) := by decide

example :
    CronAlerts.processTreatment ⟨⟨2024, 1, 1⟩, true⟩ ⟨1, "V", "d", 30, .days, none⟩
      (some ⟨2024, 1, 1⟩) ⟨[], none⟩ =
    (.ok [(1, "upcoming_30")], ⟨[(1, "upcoming_30", ⟨2024, 1, 1⟩)], none⟩) := by decide

theorem sa_alreadyLogged_not_mem (s : Store) (k : LogKey) (hf : s.fault = none)
    (hm : k ∉ s.log) :
    SendAlerts.alreadyLogged s k = (.ok false, { s with log := k :: s.log }) := by
  unfold SendAlerts.alreadyLogged insertAttempt
  rw [hf]
  simp [hm]

theorem sa_alreadyLogged_mem (s : Store) (k : LogKey) (hf : s.fault = none)
    (hm : k ∈ s.log) :
    SendAlerts.alreadyLogged s k = (.ok true, s) := by
  unfold SendAlerts.alreadyLogged insertAttempt
  rw [hf]
  simp [hm]

theorem sa_alreadyLogged_fault (s : Store) (k : LogKey) (e : StoreError)
    (hf : s.fault = some e) :
    SendAlerts.alreadyLogged s k =
      (if e.code = "23505" then (.ok true, s) else (.error e, s)) := by
  unfold SendAlerts.alreadyLogged insertAttempt
  rw [hf]

theorem sa_claim_mono (env : Env) (t : Treatment) (ty : String) (s : Store) :
    ((SendAlerts.claimAndSend env t ty s).2).fault = s.fault ∧
    ∀ x ∈ s.log, x ∈ ((SendAlerts.claimAndSend env t ty s).2).log := by
  unfold SendAlerts.claimAndSend
  cases hf : s.fault with
  | some e =>
    rw [sa_alreadyLogged_fault s _ e hf]
    split_ifs <;> exact ⟨hf, fun x hx => hx⟩
  | none =>
    by_cases hm : (t.id, ty, env.today) ∈ s.log
    · rw [sa_alreadyLogged_mem s _ hf hm]
      exact ⟨hf, fun x hx => hx⟩
    · rw [sa_alreadyLogged_not_mem s _ hf hm]
      cases htel : env.telegramOk
      · exact ⟨hf, fun x hx => List.mem_cons_of_mem _ hx⟩
      · exact ⟨hf, fun x hx => List.mem_cons_of_mem _ hx⟩

theorem sa_claim_log_sub (env : Env) (t : Treatment) (ty : String) (s : Store) :
    ∀ x ∈ ((SendAlerts.claimAndSend env t ty s).2).log,
      x ∈ s.log ∨ x = (t.id, ty, env.today) := by
  unfold SendAlerts.claimAndSend
  cases hf : s.fault with
  | some e =>
    rw [sa_alreadyLogged_fault s _ e hf]
    split_ifs <;> exact fun x hx => Or.inl hx
  | none =>
    by_cases hm : (t.id, ty, env.today) ∈ s.log
    · rw [sa_alreadyLogged_mem s _ hf hm]
      exact fun x hx => Or.inl hx
    · rw [sa_alreadyLogged_not_mem s _ hf hm]
      cases htel : env.telegramOk
      · exact fun x hx => (List.mem_cons.mp hx).elim (fun h => Or.inr h) (fun h => Or.inl h)
      · exact fun x hx => (List.mem_cons.mp hx).elim (fun h => Or.inr h) (fun h => Or.inl h)

theorem sa_claim_second (env : Env) (t : Treatment) (ty : String) (s : Store)
    (ms : List (Nat × String)) (s₁ : Store)
    (h : SendAlerts.claimAndSend env t ty s = (.ok ms, s₁)) :
    s₁.fault = s.fault ∧ (∀ x ∈ s.log, x ∈ s₁.log) ∧
    ∀ s₂, s₂.fault = s.fault → (∀ x ∈ s₁.log, x ∈ s₂.log) →
      SendAlerts.claimAndSend env t ty s₂ = (.ok [], s₂) := by
  unfold SendAlerts.claimAndSend at h ⊢
  cases hf : s.fault with
  | some e =>
    rw [sa_alreadyLogged_fault s _ e hf] at h
    by_cases hcode : e.code = "23505"
    · rw [if_pos hcode] at h
      simp only [Prod.mk.injEq, Except.ok.injEq] at h
      obtain ⟨hms, hs⟩ := h
      subst hs
      refine ⟨hf, fun x hx => hx, ?_⟩
      intro s₂ h2f h2l
      rw [sa_alreadyLogged_fault s₂ _ e h2f, if_pos hcode]
    · rw [if_neg hcode] at h
      simp at h
  | none =>
    by_cases hm : (t.id, ty, env.today) ∈ s.log
    · rw [sa_alreadyLogged_mem s _ hf hm] at h
      simp only [Prod.mk.injEq, Except.ok.injEq] at h
      obtain ⟨hms, hs⟩ := h
      subst hs
      refine ⟨hf, fun x hx => hx, ?_⟩
      intro s₂ h2f h2l
      rw [sa_alreadyLogged_mem s₂ _ h2f (h2l _ hm)]
    · rw [sa_alreadyLogged_not_mem s _ hf hm] at h
      cases htel : env.telegramOk with
      | false =>
        rw [htel] at h
        simp at h
      | true =>
        rw [htel] at h
        simp only [if_pos, Prod.mk.injEq, Except.ok.injEq] at h
        obtain ⟨hms, hs⟩ := h
        subst hs
        refine ⟨hf, fun x hx => List.mem_cons_of_mem _ hx, ?_⟩
        intro s₂ h2f h2l
        have hk : (t.id, ty, env.today) ∈ s₂.log := h2l _ (List.mem_cons_self _ _)
        rw [sa_alreadyLogged_mem s₂ _ h2f hk]

theorem sa_step_mono (env : Env) (t : Treatment) (la : Option Date) (s : Store) :
    ((SendAlerts.processTreatment env t la s).2).fault = s.fault ∧
    ∀ x ∈ s.log, x ∈ ((SendAlerts.processTreatment env t la s).2).log := by
  cases la with
  | none => exact ⟨rfl, fun x hx => hx⟩
  | some last =>
    unfold SendAlerts.processTreatment
    dsimp only
    split_ifs with h1 h2
    · exact sa_claim_mono env t "overdue_daily" s
    · exact sa_claim_mono env t ("due_in_" ++ toString (computedDays env t last)) s
    · exact ⟨rfl, fun x hx => hx⟩

theorem sa_step_second (env : Env) (t : Treatment) (la : Option Date) (s : Store)
    (ms : List (Nat × String)) (s₁ : Store)
    (h : SendAlerts.processTreatment env t la s = (.ok ms, s₁)) :
    s₁.fault = s.fault ∧ (∀ x ∈ s.log, x ∈ s₁.log) ∧
    ∀ s₂, s₂.fault = s.fault → (∀ x ∈ s₁.log, x ∈ s₂.log) →
      SendAlerts.processTreatment env t la s₂ = (.ok [], s₂) := by
  cases la with
  | none =>
    unfold SendAlerts.processTreatment at h
    simp only [Prod.mk.injEq, Except.ok.injEq] at h
    obtain ⟨hms, hs⟩ := h
    subst hs
    exact ⟨rfl, fun x hx => hx, fun s₂ _ _ => rfl⟩
  | some last =>
    unfold SendAlerts.processTreatment at h ⊢
    dsimp only at h ⊢
    split_ifs at h ⊢ with h1 h2
    · exact sa_claim_second env t "overdue_daily" s ms s₁ h
    · exact sa_claim_second env t ("due_in_" ++ toString (computedDays env t last)) s ms s₁ h
    · simp only [Prod.mk.injEq, Except.ok.injEq] at h
      obtain ⟨hms, hs⟩ := h
      subst hs
      exact ⟨rfl, fun x hx => hx, fun s₂ _ _ => rfl⟩

theorem sa_step_log_sub (env : Env) (t : Treatment) (last : Date) (s : Store) :
    ∀ x ∈ ((SendAlerts.processTreatment env t (some last) s).2).log,
      x ∈ s.log ∨
      (x = (t.id, "due_in_" ++ toString (computedDays env t last), env.today) ∧
        computedDays env t last ∈ SendAlerts.resolveAlerts t.alerts_days ∧
        ¬ computedDays env t last < 0) ∨
      (x = (t.id, "overdue_daily", env.today) ∧ computedDays env t last < 0) := by
  unfold SendAlerts.processTreatment
  dsimp only
  split_ifs with h1 h2
  · intro x hx
    rcases sa_claim_log_sub env t "overdue_daily" s x hx with h | h
    · exact Or.inl h
    · exact Or.inr (Or.inr ⟨h, h1⟩)
  · intro x hx
    rcases sa_claim_log_sub env t ("due_in_" ++ toString (computedDays env t last)) s x hx with
      h | h
    · exact Or.inl h
    · exact Or.inr (Or.inl ⟨h, h2, h1⟩)
  · exact fun x hx => Or.inl hx

theorem cron_check_fault (env : Env) (t : Treatment) (ty : String) (s : Store)
    (e : StoreError) (hf : s.fault = some e) :
    CronAlerts.checkSendLog env t ty s = (.error (.store e), s) := by
  unfold CronAlerts.checkSendLog CronAlerts.alreadyLogged
  rw [hf]

theorem cron_check_mem (env : Env) (t : Treatment) (ty : String) (s : Store)
    (hf : s.fault = none) (hm : (t.id, ty, env.today) ∈ s.log) :
    CronAlerts.checkSendLog env t ty s = (.ok [], s) := by
  unfold CronAlerts.checkSendLog CronAlerts.alreadyLogged
  rw [hf]
  simp [hm]

theorem cron_check_send (env : Env) (t : Treatment) (ty : String) (s : Store)
    (hf : s.fault = none) (hm : (t.id, ty, env.today) ∉ s.log)
    (htel : env.telegramOk = true) :
    CronAlerts.checkSendLog env t ty s =
      (.ok [(t.id, ty)], { s with log := (t.id, ty, env.today) :: s.log }) := by
  unfold CronAlerts.checkSendLog CronAlerts.alreadyLogged CronAlerts.insertLog insertAttempt
  rw [hf]
  simp [hm, htel, hf]

theorem cron_check_telfail (env : Env) (t : Treatment) (ty : String) (s : Store)
    (hf : s.fault = none) (hm : (t.id, ty, env.today) ∉ s.log)
    (htel : env.telegramOk = false) :
    CronAlerts.checkSendLog env t ty s = (.error .telegram, s) := by
  unfold CronAlerts.checkSendLog CronAlerts.alreadyLogged
  rw [hf]
  simp [hm, htel]

theorem cron_check_mono (env : Env) (t : Treatment) (ty : String) (s : Store) :
    ((CronAlerts.checkSendLog env t ty s).2).fault = s.fault ∧
    ∀ x ∈ s.log, x ∈ ((CronAlerts.checkSendLog env t ty s).2).log := by
  cases hf : s.fault with
  | some e =>
    rw [cron_check_fault env t ty s e hf]
    exact ⟨hf, fun x hx => hx⟩
  | none =>
    by_cases hm : (t.id, ty, env.today) ∈ s.log
    · rw [cron_check_mem env t ty s hf hm]
      exact ⟨hf, fun x hx => hx⟩
    · cases htel : env.telegramOk with
      | false =>
        rw [cron_check_telfail env t ty s hf hm htel]
        exact ⟨hf, fun x hx => hx⟩
      | true =>
        rw [cron_check_send env t ty s hf hm htel]
        exact ⟨hf, fun x hx => List.mem_cons_of_mem _ hx⟩

theorem cron_check_log_sub (env : Env) (t : Treatment) (ty : String) (s : Store) :
    ∀ x ∈ ((CronAlerts.checkSendLog env t ty s).2).log,
      x ∈ s.log ∨ x = (t.id, ty, env.today) := by
  cases hf : s.fault with
  | some e =>
    rw [cron_check_fault env t ty s e hf]
    exact fun x hx => Or.inl hx
  | none =>
    by_cases hm : (t.id, ty, env.today) ∈ s.log
    · rw [cron_check_mem env t ty s hf hm]
      exact fun x hx => Or.inl hx
    · cases htel : env.telegramOk with
      | false =>
        rw [cron_check_telfail env t ty s hf hm htel]
        exact fun x hx => Or.inl hx
      | true =>
        rw [cron_check_send env t ty s hf hm htel]
        exact fun x hx => (List.mem_cons.mp hx).elim (fun h => Or.inr h) (fun h => Or.inl h)

theorem cron_check_ok (env : Env) (t : Treatment) (ty : String) (s : Store)
    (ms : List (Nat × String)) (s₁ : Store)
    (h : CronAlerts.checkSendLog env t ty s = (.ok ms, s₁)) :
    s.fault = none ∧ s₁.fault = none ∧ (t.id, ty, env.today) ∈ s₁.log ∧
      ∀ x ∈ s.log, x ∈ s₁.log := by
  cases hf : s.fault with
  | some e =>
    rw [cron_check_fault env t ty s e hf] at h
    simp at h
  | none =>
    by_cases hm : (t.id, ty, env.today) ∈ s.log
    · rw [cron_check_mem env t ty s hf hm] at h
      simp only [Prod.mk.injEq, Except.ok.injEq] at h
      obtain ⟨hms, hs⟩ := h
      subst hs
      exact ⟨rfl, hf, hm, fun x hx => hx⟩
    · cases htel : env.telegramOk with
      | false =>
        rw [cron_check_telfail env t ty s hf hm htel] at h
        simp at h
      | true =>
        rw [cron_check_send env t ty s hf hm htel] at h
        simp only [Prod.mk.injEq, Except.ok.injEq] at h
        obtain ⟨hms, hs⟩ := h
        subst hs
        exact ⟨rfl, hf, List.mem_cons_self _ _, fun x hx => List.mem_cons_of_mem _ hx⟩

theorem cron_check_notel (env : Env) (t : Treatment) (ty : String) (s : Store)
    (htel : env.telegramOk = false) :
    (CronAlerts.checkSendLog env t ty s).2 = s := by
  cases hf : s.fault with
  | some e => rw [cron_check_fault env t ty s e hf]
  | none =>
    by_cases hm : (t.id, ty, env.today) ∈ s.log
    · rw [cron_check_mem env t ty s hf hm]
    · rw [cron_check_telfail env t ty s hf hm htel]

theorem phase_mono (env : Env) (t : Treatment) (ty : String) (s : Store)
    (c : Prop) [Decidable c] :
    (((if c then CronAlerts.checkSendLog env t ty s else (.ok [], s))).2).fault = s.fault ∧
    ∀ x ∈ s.log, x ∈ (((if c then CronAlerts.checkSendLog env t ty s else (.ok [], s))).2).log := by
  split_ifs with hc
  · exact cron_check_mono env t ty s
  · exact ⟨rfl, fun x hx => hx⟩

theorem phase_log_sub (env : Env) (t : Treatment) (ty : String) (s : Store)
    (c : Prop) [Decidable c] :
    ∀ x ∈ (((if c then CronAlerts.checkSendLog env t ty s else (.ok [], s))).2).log,
      x ∈ s.log ∨ (x = (t.id, ty, env.today) ∧ c) := by
  split_ifs with hc
  · exact fun x hx => (cron_check_log_sub env t ty s x hx).elim Or.inl (fun h => Or.inr ⟨h, hc⟩)
  · exact fun x hx => Or.inl hx

theorem phase_ok (env : Env) (t : Treatment) (ty : String) (s : Store)
    (ms : List (Nat × String)) (s₁ : Store) (c : Prop) [Decidable c]
    (h : (if c then CronAlerts.checkSendLog env t ty s else (.ok [], s)) = (.ok ms, s₁)) :
    s₁.fault = s.fault ∧ (∀ x ∈ s.log, x ∈ s₁.log) := by
  split_ifs at h with hc
  · have hk := cron_check_ok env t ty s ms s₁ h
    exact ⟨hk.2.1.trans hk.1.symm, hk.2.2.2⟩
  · simp only [Prod.mk.injEq, Except.ok.injEq] at h
    obtain ⟨hms, hs⟩ := h
    subst hs
    exact ⟨rfl, fun x hx => hx⟩

theorem phase_second (env : Env) (t : Treatment) (ty : String) (s : Store)
    (ms : List (Nat × String)) (s₁ : Store) (c : Prop) [Decidable c]
    (h : (if c then CronAlerts.checkSendLog env t ty s else (.ok [], s)) = (.ok ms, s₁))
    (s₂ : Store) (h2f : s₂.fault = s.fault) (h2l : ∀ x ∈ s₁.log, x ∈ s₂.log) :
    (if c then CronAlerts.checkSendLog env t ty s₂ else (.ok [], s₂)) = (.ok [], s₂) := by
  split_ifs at h ⊢ with hc
  · have hk := cron_check_ok env t ty s ms s₁ h
    exact cron_check_mem env t ty s₂ (by rw [h2f, hk.1]) (h2l _ hk.2.2.1)
  · rfl

theorem phase_notel (env : Env) (t : Treatment) (ty : String) (s : Store)
    (c : Prop) [Decidable c] (htel : env.telegramOk = false) :
    ((if c then CronAlerts.checkSendLog env t ty s else (.ok [], s))).2 = s := by
  split_ifs with hc
  · exact cron_check_notel env t ty s htel
  · rfl

theorem cron_step_mono (env : Env) (t : Treatment) (la : Option Date) (s : Store) :
    ((CronAlerts.processTreatment env t la s).2).fault = s.fault ∧
    ∀ x ∈ s.log, x ∈ ((CronAlerts.processTreatment env t la s).2).log := by
  cases la with
  | none => exact ⟨rfl, fun x hx => hx⟩
  | some last =>
    unfold CronAlerts.processTreatment
    dsimp only
    rcases hp1 : (if computedDays env t last ∈ CronAlerts.resolveAlerts t.alerts_days then
          CronAlerts.checkSendLog env t ("upcoming_" ++ toString (computedDays env t last)) s
        else (.ok [], s)) with ⟨r₁, u₁⟩
    have hm₁ := phase_mono env t ("upcoming_" ++ toString (computedDays env t last)) s
      (computedDays env t last ∈ CronAlerts.resolveAlerts t.alerts_days)
    rw [hp1] at hm₁
    cases r₁ with
    | error e => exact hm₁
    | ok m₁ =>
      dsimp only
      rcases hp2 : (if computedDays env t last < 0 then
            CronAlerts.checkSendLog env t "overdue_daily" u₁
          else (.ok [], u₁)) with ⟨r₂, u₂⟩
      have hm₂ := phase_mono env t "overdue_daily" u₁ (computedDays env t last < 0)
      rw [hp2] at hm₂
      cases r₂ with
      | error e => exact ⟨hm₂.1.trans hm₁.1, fun x hx => hm₂.2 x (hm₁.2 x hx)⟩
      | ok m₂ => exact ⟨hm₂.1.trans hm₁.1, fun x hx => hm₂.2 x (hm₁.2 x hx)⟩

theorem cron_step_second (env : Env) (t : Treatment) (la : Option Date) (s : Store)
    (ms : List (Nat × String)) (s₁ : Store)
    (h : CronAlerts.processTreatment env t la s = (.ok ms, s₁)) :
    s₁.fault = s.fault ∧ (∀ x ∈ s.log, x ∈ s₁.log) ∧
    ∀ s₂, s₂.fault = s.fault → (∀ x ∈ s₁.log, x ∈ s₂.log) →
      CronAlerts.processTreatment env t la s₂ = (.ok [], s₂) := by
  cases la with
  | none =>
    unfold CronAlerts.processTreatment at h
    simp only [Prod.mk.injEq, Except.ok.injEq] at h
    obtain ⟨hms, hs⟩ := h
    subst hs
    exact ⟨rfl, fun x hx => hx, fun s₂ _ _ => rfl⟩
  | some last =>
    unfold CronAlerts.processTreatment at h ⊢
    dsimp only at h ⊢
    rcases hp1 : (if computedDays env t last ∈ CronAlerts.resolveAlerts t.alerts_days then
          CronAlerts.checkSendLog env t ("upcoming_" ++ toString (computedDays env t last)) s
        else (.ok [], s)) with ⟨r₁, u₁⟩
    rw [hp1] at h
    cases r₁ with
    | error e => simp at h
    | ok m₁ =>
      dsimp only at h
      rcases hp2 : (if computedDays env t last < 0 then
            CronAlerts.checkSendLog env t "overdue_daily" u₁
          else (.ok [], u₁)) with ⟨r₂, u₂⟩
      rw [hp2] at h
      cases r₂ with
      | error e => simp at h
      | ok m₂ =>
        simp only [Prod.mk.injEq, Except.ok.injEq] at h
        obtain ⟨hms, hs⟩ := h
        subst hs
        have hq1 := phase_ok env t ("upcoming_" ++ toString (computedDays env t last)) s m₁ u₁
          (computedDays env t last ∈ CronAlerts.resolveAlerts t.alerts_days) hp1
        have hq2 := phase_ok env t "overdue_daily" u₁ m₂ u₂
          (computedDays env t last < 0) hp2
        refine ⟨hq2.1.trans hq1.1, fun x hx => hq2.2 x (hq1.2 x hx), ?_⟩
        intro s₂ h2f h2l
        have hphase2 := phase_second env t "overdue_daily" u₁ m₂ u₂
          (computedDays env t last < 0) hp2 s₂ (h2f.trans hq1.1.symm) h2l
        have hphase1 := phase_second env t ("upcoming_" ++ toString (computedDays env t last)) s
          m₁ u₁ (computedDays env t last ∈ CronAlerts.resolveAlerts t.alerts_days) hp1 s₂ h2f
          (fun x hx => h2l x (hq2.2 x hx))
        rw [hphase1]
        dsimp only
        rw [hphase2]
        rfl

theorem cron_step_log_sub (env : Env) (t : Treatment) (last : Date) (s : Store) :
    ∀ x ∈ ((CronAlerts.processTreatment env t (some last) s).2).log,
      x ∈ s.log ∨
      (x = (t.id, "upcoming_" ++ toString (computedDays env t last), env.today) ∧
        computedDays env t last ∈ CronAlerts.resolveAlerts t.alerts_days) ∨
      (x = (t.id, "overdue_daily", env.today) ∧ computedDays env t last < 0) := by
  unfold CronAlerts.processTreatment
  dsimp only
  rcases hp1 : (if computedDays env t last ∈ CronAlerts.resolveAlerts t.alerts_days then
        CronAlerts.checkSendLog env t ("upcoming_" ++ toString (computedDays env t last)) s
      else (.ok [], s)) with ⟨r₁, u₁⟩
  have hl₁ := phase_log_sub env t ("upcoming_" ++ toString (computedDays env t last)) s
    (computedDays env t last ∈ CronAlerts.resolveAlerts t.alerts_days)
  rw [hp1] at hl₁
  cases r₁ with
  | error e => exact fun x hx => (hl₁ x hx).elim Or.inl (fun hh => Or.inr (Or.inl hh))
  | ok m₁ =>
    dsimp only
    rcases hp2 : (if computedDays env t last < 0 then
          CronAlerts.checkSendLog env t "overdue_daily" u₁
        else (.ok [], u₁)) with ⟨r₂, u₂⟩
    have hl₂ := phase_log_sub env t "overdue_daily" u₁ (computedDays env t last < 0)
    rw [hp2] at hl₂
    cases r₂ with
    | error e =>
      exact fun x hx => (hl₂ x hx).elim
        (fun h => (hl₁ x h).elim Or.inl (fun hh => Or.inr (Or.inl hh)))
        (fun hh => Or.inr (Or.inr hh))
    | ok m₂ =>
      exact fun x hx => (hl₂ x hx).elim
        (fun h => (hl₁ x h).elim Or.inl (fun hh => Or.inr (Or.inl hh)))
        (fun hh => Or.inr (Or.inr hh))

theorem cron_step_notel (env : Env) (t : Treatment) (la : Option Date) (s : Store)
    (htel : env.telegramOk = false) :
    (CronAlerts.processTreatment env t la s).2 = s := by
  cases la with
  | none => rfl
  | some last =>
    unfold CronAlerts.processTreatment
    dsimp only
    rcases hp1 : (if computedDays env t last ∈ CronAlerts.resolveAlerts t.alerts_days then
          CronAlerts.checkSendLog env t ("upcoming_" ++ toString (computedDays env t last)) s
        else (.ok [], s)) with ⟨r₁, u₁⟩
    have h1 : u₁ = s := by
      have := phase_notel env t ("upcoming_" ++ toString (computedDays env t last)) s
        (computedDays env t last ∈ CronAlerts.resolveAlerts t.alerts_days) htel
      rw [hp1] at this
      exact this
    cases r₁ with
    | error e => exact h1
    | ok m₁ =>
      dsimp only
      rcases hp2 : (if computedDays env t last < 0 then
            CronAlerts.checkSendLog env t "overdue_daily" u₁
          else (.ok [], u₁)) with ⟨r₂, u₂⟩
      have h2 : u₂ = u₁ := by
        have := phase_notel env t "overdue_daily" u₁ (computedDays env t last < 0) htel
        rw [hp2] at this
        exact this
      cases r₂ with
      | error e => exact h2.trans h1
      | ok m₂ => exact h2.trans h1

theorem runAll_mono
    (step : Treatment → Option Date → Store → Except RunError (List (Nat × String)) × Store)
    (hstep : ∀ t la s, ((step t la s).2).fault = s.fault ∧
      ∀ x ∈ s.log, x ∈ ((step t la s).2).log) :
    ∀ (items : List (Treatment × Option Date)) (s : Store),
      ((runAll step items s).2).fault = s.fault ∧
      ∀ x ∈ s.log, x ∈ ((runAll step items s).2).log := by
  intro items
  induction items with
  | nil => exact fun s => ⟨rfl, fun x hx => hx⟩
  | cons p rest ih =>
    intro s
    obtain ⟨t, la⟩ := p
    unfold runAll
    rcases hs : step t la s with ⟨r, u⟩
    have h₁ := hstep t la s
    rw [hs] at h₁
    cases r with
    | error e => exact h₁
    | ok m =>
      dsimp only
      rcases hr : runAll step rest u with ⟨r₂, u₂⟩
      have h₂ := ih u
      rw [hr] at h₂
      cases r₂ with
      | error e => exact ⟨h₂.1.trans h₁.1, fun x hx => h₂.2 x (h₁.2 x hx)⟩
      | ok m₂ => exact ⟨h₂.1.trans h₁.1, fun x hx => h₂.2 x (h₁.2 x hx)⟩

theorem runAll_second
    (step : Treatment → Option Date → Store → Except RunError (List (Nat × String)) × Store)
    (hmono : ∀ t la s, ((step t la s).2).fault = s.fault ∧
      ∀ x ∈ s.log, x ∈ ((step t la s).2).log)
    (hsecond : ∀ t la s ms s₁, step t la s = (.ok ms, s₁) →
      s₁.fault = s.fault ∧ (∀ x ∈ s.log, x ∈ s₁.log) ∧
      ∀ s₂, s₂.fault = s.fault → (∀ x ∈ s₁.log, x ∈ s₂.log) → step t la s₂ = (.ok [], s₂)) :
    ∀ (items : List (Treatment × Option Date)) (s : Store) (ms : List (Nat × String))
      (s₁ : Store), runAll step items s = (.ok ms, s₁) →
      ∀ s₂, s₂.fault = s.fault → (∀ x ∈ s₁.log, x ∈ s₂.log) →
        runAll step items s₂ = (.ok [], s₂) := by
  intro items
  induction items with
  | nil =>
    intro s ms s₁ h s₂ h2f h2l
    rfl
  | cons p rest ih =>
    obtain ⟨t, la⟩ := p
    intro s ms s₁ h s₂ h2f h2l
    unfold runAll at h ⊢
    rcases hs : step t la s with ⟨r, u⟩
    rw [hs] at h
    cases r with
    | error e => simp at h
    | ok m =>
      dsimp only at h
      rcases hr : runAll step rest u with ⟨r₂, u₂⟩
      rw [hr] at h
      cases r₂ with
      | error e => simp at h
      | ok m₂ =>
        simp only [Prod.mk.injEq, Except.ok.injEq] at h
        obtain ⟨hm, hsx⟩ := h
        subst hsx
        have hst := hsecond t la s m u hs
        have hrm := runAll_mono step hmono rest u
        rw [hr] at hrm
        have hstep2 : step t la s₂ = (.ok [], s₂) :=
          hst.2.2 s₂ h2f (fun x hx => h2l x (hrm.2 x hx))
        have hrest2 : runAll step rest s₂ = (.ok [], s₂) :=
          ih u m₂ u₂ hr s₂ (h2f.trans hst.1.symm) h2l
        rw [hstep2]
        dsimp only
        rw [hrest2]
        rfl

/-- C5: the Alert Runner is idempotent per triple per day: in both cron scripts, a
second run over the same treatments on the same calendar date after a completed first
run sends no notification and adds no alert-log entry. -/
theorem alert_runner_idempotent (env : Env) (items : List (Treatment × Option Date))
    (s s₁ : Store) (ms : List (Nat × String)) :
    (runAll (SendAlerts.processTreatment env) items s = (.ok ms, s₁) →
      runAll (SendAlerts.processTreatment env) items s₁ = (.ok [], s₁)) ∧
    (runAll (CronAlerts.processTreatment env) items s = (.ok ms, s₁) →
      runAll (CronAlerts.processTreatment env) items s₁ = (.ok [], s₁)) := by
  constructor
  · intro h
    have hm := runAll_mono (SendAlerts.processTreatment env) (sa_step_mono env) items s
    rw [h] at hm
    exact runAll_second (SendAlerts.processTreatment env) (sa_step_mono env)
      (fun t la u um u₁ hh => sa_step_second env t la u um u₁ hh) items s ms s₁ h s₁ hm.1
      (fun x hx => hx)
  · intro h
    have hm := runAll_mono (CronAlerts.processTreatment env) (cron_step_mono env) items s
    rw [h] at hm
    exact runAll_second (CronAlerts.processTreatment env) (cron_step_mono env)
      (fun t la u um u₁ hh => cron_step_second env t la u um u₁ hh) items s ms s₁ h s₁ hm.1
      (fun x hx => hx)

/-- Witness for C5: one treatment 30 days from due, run again after the completed
first run, for both runners. -/
theorem alert_runner_idempotent_witness :
    runAll (SendAlerts.processTreatment ⟨⟨2024, 1, 1⟩, true⟩)
        [(⟨1, "V", "d", 30, .days, none⟩, some ⟨2024, 1, 1⟩)]
        ⟨[(1, "due_in_30", ⟨2024, 1, 1⟩)], none⟩ =
      (.ok [], ⟨[(1, "due_in_30", ⟨2024, 1, 1⟩)], none⟩) ∧
    runAll (CronAlerts.processTreatment ⟨⟨2024, 1, 1⟩, true⟩)
        [(⟨1, "V", "d", 30, .days, none⟩, some ⟨2024, 1, 1⟩)]
        ⟨[(1, "upcoming_30", ⟨2024, 1, 1⟩)], none⟩ =
      (.ok [], ⟨[(1, "upcoming_30", ⟨2024, 1, 1⟩)], none⟩) :=
  ⟨(alert_runner_idempotent ⟨⟨2024, 1, 1⟩, true⟩ [(⟨1, "V", "d", 30, .days, none⟩,
      some ⟨2024, 1, 1⟩)] ⟨[], none⟩ ⟨[(1, "due_in_30", ⟨2024, 1, 1⟩)], none⟩
      [(1, "due_in_30")]).1 (by decide),
   (alert_runner_idempotent ⟨⟨2024, 1, 1⟩, true⟩ [(⟨1, "V", "d", 30, .days, none⟩,
      some ⟨2024, 1, 1⟩)] ⟨[], none⟩ ⟨[(1, "upcoming_30", ⟨2024, 1, 1⟩)], none⟩
      [(1, "upcoming_30")]).2 (by decide)⟩

/-- C9: a treatment with no application history is skipped entirely by both runners:
no notification is sent and the alert-log state is untouched. -/
theorem no_history_skips (env : Env) (t : Treatment) (s : Store) :
    SendAlerts.processTreatment env t none s = (.ok [], s) ∧
    CronAlerts.processTreatment env t none s = (.ok [], s) :=
  ⟨rfl, rfl⟩

/-- C4: the claim operation of the Alert Deduplicator (the insert-based alreadyLogged
of scripts/send-alerts.js) reports claim-acquired (false) exactly when no alert-log
row for the triple exists on a healthy store, inserting the row; reports
already-claimed (true) exactly when the store signals unique_violation 23505 for the
triple; and re-raises any other store error as a hard error. -/
theorem alreadyLogged_claim_spec (s : Store) (k : LogKey) :
    (s.fault = none →
      ((SendAlerts.alreadyLogged s k = (.ok false, { s with log := k :: s.log }) ↔
          k ∉ s.log) ∧
       (SendAlerts.alreadyLogged s k = (.ok true, s) ↔ k ∈ s.log) ∧
       ((insertAttempt s k).1 = some ⟨"23505"⟩ ↔ k ∈ s.log))) ∧
    (∀ e, (insertAttempt s k).1 = some e → e.code ≠ "23505" →
      SendAlerts.alreadyLogged s k = (.error e, s)) ∧
    (∀ e, (insertAttempt s k).1 = some e → e.code = "23505" →
      SendAlerts.alreadyLogged s k = (.ok true, s)) := by
  refine ⟨?_, ?_, ?_⟩
  · intro hf
    by_cases hm : k ∈ s.log
    · have hia : insertAttempt s k = (some ⟨"23505"⟩, s) := by
        unfold insertAttempt
        rw [hf]
        simp [hm]
      rw [sa_alreadyLogged_mem s k hf hm, hia]
      refine ⟨?_, by simp [hm], by simp [hm]⟩
      constructor
      · intro hh
        simp at hh
      · intro hh
        exact absurd hm hh
    · have hia : insertAttempt s k = (none, { s with log := k :: s.log }) := by
        unfold insertAttempt
        rw [hf]
        simp [hm]
      rw [sa_alreadyLogged_not_mem s k hf hm, hia]
      refine ⟨by simp [hm], ?_, by simp [hm]⟩
      constructor
      · intro hh
        simp at hh
      · intro hh
        exact absurd hh hm
  · intro e he hcode
    cases hf : s.fault with
    | some e' =>
      have hia : insertAttempt s k = (some e', s) := by
        unfold insertAttempt
        rw [hf]
      rw [hia] at he
      simp only [Option.some.injEq] at he
      subst he
      rw [sa_alreadyLogged_fault s k e' hf, if_neg hcode]
    | none =>
      by_cases hm : k ∈ s.log
      · have hia : insertAttempt s k = (some ⟨"23505"⟩, s) := by
          unfold insertAttempt
          rw [hf]
          simp [hm]
        rw [hia] at he
        simp only [Option.some.injEq] at he
        exact absurd (by rw [← he]) hcode
      · have hia : insertAttempt s k = (none, { s with log := k :: s.log }) := by
          unfold insertAttempt
          rw [hf]
          simp [hm]
        rw [hia] at he
        simp at he
  · intro e he hcode
    cases hf : s.fault with
    | some e' =>
      have hia : insertAttempt s k = (some e', s) := by
        unfold insertAttempt
        rw [hf]
      rw [hia] at he
      simp only [Option.some.injEq] at he
      subst he
      rw [sa_alreadyLogged_fault s k e' hf, if_pos hcode]
    | none =>
      by_cases hm : k ∈ s.log
      · exact sa_alreadyLogged_mem s k hf hm
      · have hia : insertAttempt s k = (none, { s with log := k :: s.log }) := by
          unfold insertAttempt
          rw [hf]
          simp [hm]
        rw [hia] at he
        simp at he

/-- Witness for C4: the healthy empty store, a store with an unrelated injected error
code 500, and a store with an injected unique-violation code. -/
theorem alreadyLogged_claim_spec_witness :
    ((SendAlerts.alreadyLogged ⟨[], none⟩ (1, "overdue_daily", ⟨2024, 1, 10⟩) =
        (.ok false, ⟨[(1, "overdue_daily", ⟨2024, 1, 10⟩)], none⟩) ↔
      (1, "overdue_daily", (⟨2024, 1, 10⟩ : Date)) ∉ Store.log ⟨[], none⟩) ∧
     (SendAlerts.alreadyLogged ⟨[], none⟩ (1, "overdue_daily", ⟨2024, 1, 10⟩) =
        (.ok true, ⟨[], none⟩) ↔
      (1, "overdue_daily", (⟨2024, 1, 10⟩ : Date)) ∈ Store.log ⟨[], none⟩) ∧
     ((insertAttempt ⟨[], none⟩ (1, "overdue_daily", ⟨2024, 1, 10⟩)).1 = some ⟨"23505"⟩ ↔
      (1, "overdue_daily", (⟨2024, 1, 10⟩ : Date)) ∈ Store.log ⟨[], none⟩)) ∧
    SendAlerts.alreadyLogged ⟨[], some ⟨"500"⟩⟩ (1, "overdue_daily", ⟨2024, 1, 10⟩) =
      (.error ⟨"500"⟩, ⟨[], some ⟨"500"⟩⟩) ∧
    SendAlerts.alreadyLogged ⟨[], some ⟨"23505"⟩⟩ (1, "overdue_daily", ⟨2024, 1, 10⟩) =
      (.ok true, ⟨[], some ⟨"23505"⟩⟩) :=
  ⟨(alreadyLogged_claim_spec ⟨[], none⟩ (1, "overdue_daily", ⟨2024, 1, 10⟩)).1 rfl,
   (alreadyLogged_claim_spec ⟨[], some ⟨"500"⟩⟩ (1, "overdue_daily", ⟨2024, 1, 10⟩)).2.1
     ⟨"500"⟩ rfl (by decide),
   (alreadyLogged_claim_spec ⟨[], some ⟨"23505"⟩⟩ (1, "overdue_daily", ⟨2024, 1, 10⟩)).2.2
     ⟨"23505"⟩ rfl rfl⟩

/-- C1 counterexample: in scripts/send-alerts.js the dedup claim inserts the
alert-log row before the Telegram send, so when delivery fails for an overdue
treatment the row for (treatment, overdue_daily, today) is already recorded and the
alert-log state differs from the state before the attempt; the next run will skip
the alert instead of retrying it. -/
theorem delivery_failure_mutates_log_sendAlerts :
    SendAlerts.processTreatment ⟨⟨2024, 1, 10⟩, false⟩ ⟨1, "V", "d", 1, .days, none⟩
        (some ⟨2024, 1, 1⟩) ⟨[], none⟩ =
      (.error .telegram, ⟨[(1, "overdue_daily", ⟨2024, 1, 10⟩)], none⟩) ∧
    (1, "overdue_daily", (⟨2024, 1, 10⟩ : Date)) ∉ Store.log ⟨[], none⟩ :=
  ⟨by decide, by decide⟩

/-- C1 amended: in the Zeus Alerts cron runner, which checks, sends and only then
inserts, a delivery failure leaves the alert log exactly as it was before the
attempt, so the next scheduled run retries the alert; the send-alerts.js runner
instead records the claim row during the dedup check, before delivery, so there the
entry persists and retry is suppressed. -/
theorem cron_delivery_failure_preserves_log (env : Env) (t : Treatment)
    (la : Option Date) (s : Store) (h : env.telegramOk = false) :
    ((CronAlerts.processTreatment env t la s).2).log = s.log := by
  rw [cron_step_notel env t la s h]

/-- Witness for C1 at a concrete overdue treatment with a failing channel. -/
theorem cron_delivery_failure_preserves_log_witness :
    ((CronAlerts.processTreatment ⟨⟨2024, 1, 10⟩, false⟩ ⟨1, "V", "d", 1, .days, none⟩
        (some ⟨2024, 1, 1⟩) ⟨[], none⟩).2).log = Store.log ⟨[], none⟩ :=
  cron_delivery_failure_preserves_log ⟨⟨2024, 1, 10⟩, false⟩ ⟨1, "V", "d", 1, .days, none⟩
    (some ⟨2024, 1, 1⟩) ⟨[], none⟩ rfl

/-- C2 counterexample: scripts/send-alerts.js keeps an empty alerts_days array as is
instead of using the default [30, 15, 5]: a treatment exactly 30 days from due with
an empty list fires nothing, while the same treatment configured [30, 15, 5] fires. -/
theorem empty_alerts_days_not_defaulted_sendAlerts :
    SendAlerts.resolveAlerts (some []) = [] ∧
    SendAlerts.processTreatment ⟨⟨2024, 1, 1⟩, true⟩ ⟨1, "V", "d", 30, .days, some []⟩
        (some ⟨2024, 1, 1⟩) ⟨[], none⟩ = (.ok [], ⟨[], none⟩) ∧
    SendAlerts.processTreatment ⟨⟨2024, 1, 1⟩, true⟩ ⟨1, "V", "d", 30, .days, some [30, 15, 5]⟩
        (some ⟨2024, 1, 1⟩) ⟨[], none⟩ =
      (.ok [(1, "due_in_30")], ⟨[(1, "due_in_30", ⟨2024, 1, 1⟩)], none⟩) :=
  ⟨rfl, by decide, by decide⟩

/-- C2 amended: the Zeus Alerts cron runner resolves thresholds to the configured
list with the default [30, 15, 5] for an absent or empty list, exactly as the
specification words it; send-alerts.js defaults only for an absent (non-array) value,
keeping an empty list empty; in both runners a treatment with no configured
alerts_days behaves identically to one configured with [30, 15, 5]. -/
theorem resolve_alerts_spec (env : Env) (t : Treatment) (la : Option Date) (s : Store)
    (a : Option (List Int)) :
    CronAlerts.resolveAlerts a = specResolveAlerts a ∧
    SendAlerts.resolveAlerts none = [30, 15, 5] ∧
    SendAlerts.processTreatment env { t with alerts_days := none } la s =
      SendAlerts.processTreatment env { t with alerts_days := some [30, 15, 5] } la s ∧
    CronAlerts.processTreatment env { t with alerts_days := none } la s =
      CronAlerts.processTreatment env { t with alerts_days := some [30, 15, 5] } la s := by
  refine ⟨?_, rfl, ?_, ?_⟩
  · cases a with
    | none => rfl
    | some l =>
      cases l with
      | nil => rfl
      | cons x xs => simp [CronAlerts.resolveAlerts, specResolveAlerts]
  · cases la <;> rfl
  · cases la <;> rfl

/-- C3 counterexample: scripts/send-alerts.js logs a threshold alert under the type
string due_in_30 for a treatment exactly 30 days from due, which is neither
upcoming_30 nor overdue_daily. -/
theorem alert_type_due_in_sendAlerts :
    SendAlerts.processTreatment ⟨⟨2024, 1, 1⟩, true⟩ ⟨1, "V", "d", 30, .days, none⟩
        (some ⟨2024, 1, 1⟩) ⟨[], none⟩ =
      (.ok [(1, "due_in_30")], ⟨[(1, "due_in_30", ⟨2024, 1, 1⟩)], none⟩) ∧
    "due_in_30" ≠ "upcoming_30" ∧ "due_in_30" ≠ "overdue_daily" :=
  ⟨by decide, by decide, by decide⟩

/-- C3 amended: every alert-log row a runner adds is dated with the day of the run
and carries one of exactly two alert types: overdue_daily, only when the day offset
is negative, or a threshold type for the computed day offset, only when that offset
is in the resolved thresholds — spelled upcoming_N by the Zeus Alerts cron runner and
due_in_N by send-alerts.js. -/
theorem alert_types_spec (env : Env) (t : Treatment) (last : Date) (s : Store)
    (k : LogKey) :
    (k ∈ ((CronAlerts.processTreatment env t (some last) s).2).log → k ∈ s.log ∨
      (k = (t.id, "upcoming_" ++ toString (computedDays env t last), env.today) ∧
        computedDays env t last ∈ CronAlerts.resolveAlerts t.alerts_days) ∨
      (k = (t.id, "overdue_daily", env.today) ∧ computedDays env t last < 0)) ∧
    (k ∈ ((SendAlerts.processTreatment env t (some last) s).2).log → k ∈ s.log ∨
      (k = (t.id, "due_in_" ++ toString (computedDays env t last), env.today) ∧
        computedDays env t last ∈ SendAlerts.resolveAlerts t.alerts_days ∧
        ¬ computedDays env t last < 0) ∨
      (k = (t.id, "overdue_daily", env.today) ∧ computedDays env t last < 0)) :=
  ⟨fun hk => cron_step_log_sub env t last s k hk,
   fun hk => sa_step_log_sub env t last s k hk⟩

/-- Witness for C3: the row written by the cron runner for a treatment 30 days from
due is classified by the theorem as the upcoming_30 threshold row. -/
theorem alert_types_spec_witness :
    (1, "upcoming_30", (⟨2024, 1, 1⟩ : Date)) ∈ ([] : List LogKey) ∨
    (((1, "upcoming_30", (⟨2024, 1, 1⟩ : Date)) : LogKey) =
        (1, "upcoming_30", ⟨2024, 1, 1⟩) ∧ (30 : Int) ∈ ([30, 15, 5] : List Int)) ∨
    (((1, "upcoming_30", (⟨2024, 1, 1⟩ : Date)) : LogKey) =
        (1, "overdue_daily", ⟨2024, 1, 1⟩) ∧ (30 : Int) < 0) :=
  (alert_types_spec ⟨⟨2024, 1, 1⟩, true⟩ ⟨1, "V", "d", 30, .days, none⟩ ⟨2024, 1, 1⟩
    ⟨[], none⟩ (1, "upcoming_30", ⟨2024, 1, 1⟩)).1 (by decide)
